import Mathlib

/-!
# A verification development of the rlox tree-walking interpreter

Shallow embedding of the rlox sources (scanner, environment chain,
tree-walking interpreter) and proofs about the behaviour its specification
describes: closure capture, error propagation, block scoping, assignment,
REPL persistence, scanner error handling, short-circuit evaluation, and
parameter binding.

Modelling conventions:
* Rust `f64` number payloads are modelled as `Rat`; no theorem below
  depends on floating-point rounding, IEEE division by zero, or the exact
  `Display` rendering of numbers.
* `HashMap<String, Value>` is modelled as an association list with
  insert-replaces-existing-key (`frameInsert`), which preserves exactly the
  observable `get`/`insert` behaviour of the map.
* The `Environment` parent chain (`Option<Rc<RefCell<Environment>>>`) is
  modelled as the nonempty list of frames from innermost node to root:
  a node is its head frame; the parent pointer is the tail.  The program
  never keeps two live aliases of one environment cell across an observable
  step (every `clone` is either immediately installed as the single current
  environment or wrapped in a fresh `Rc`), so the functional tree/list model
  is observationally faithful.
* Interpreter side effects: `println!` output is modelled as a `List String`
  field of the interpreter state, appended to in order.
* Recursion through stored function bodies and `while` loops is not
  structural, so the interpreter takes a fuel parameter; `none` means the
  computation was cut off (out of fuel) or hit a Rust panic
  (`arguments[i]` out of bounds in `LoxFunction::call`).
-/

/-- Alias for `Bool`, usable inside namespaces that declare a `Bool` constructor. -/
abbrev Boolean := Bool

/-- Alias for `String`, usable inside namespaces that declare a `String` constructor. -/
abbrev Str := String

/-! ## Token data model (token_type.rs, token.rs) -/

/-- token_type.rs: the interpreter-side token kinds.  `String`/`Number`
carry their decoded payload. -/
inductive TokenType where
  | LeftParen | RightParen | LeftBrace | RightBrace | Comma | Dot | Minus | Plus
  | Semicolon | Slash | Star
  | Bang | BangEqual | Equal | EqualEqual | Greater | GreaterEqual | Less | LessEqual
  | Identifier
  | String (s : String)
  | Number (q : Rat)
  | And | Class | Else | False | Fun | For | If | Nil | Or | Print | Return
  | Super | This | True | Var | While
  | Eof
deriving Repr, DecidableEq

/-- token.rs: a token is its kind, the exact source lexeme, and a 1-based line. -/
structure Token where
  token_type : TokenType
  lexeme : String
  line : Nat
deriving Repr, DecidableEq

/-- token.rs `Token::new_with_lexeme`. -/
def Token.new_with_lexeme (token_type : TokenType) (lexeme : String) (line : Nat) : Token :=
  ⟨token_type, lexeme, line⟩

/-! ## Literals and the AST (literal.rs, expr.rs, stmt.rs)

`expr.rs` under `src/` is a stale four-variant subset; the constructors of
`Expr` below are reconstructed from their uses in `interpreter.rs` (and
`parser.rs`), which pattern-match the full set with the field names shown. -/

/-- literal.rs (identical to the `Literal` in expr.rs). -/
inductive Literal where
  | String (s : String)
  | Number (q : Rat)
  | Bool (b : Bool)
  | Nil
deriving Repr, DecidableEq

/-- literal.rs `is_truthy`: only `Nil` and `Bool(false)` are falsy. -/
def Literal.is_truthy : Literal → Boolean
  | .Nil => false
  | .Bool false => false
  | _ => true

/-- The expression tree, as consumed by `Interpreter::evaluate`. -/
inductive Expr where
  | Assign (name : Token) (value : Expr)
  | Binary (left : Expr) (operator : Token) (right : Expr)
  | Call (callee : Expr) (paren : Token) (arguments : List Expr)
  | Get (object : Expr) (name : Token)
  | Grouping (expression : Expr)
  | Literal (l : Literal)
  | Logical (left : Expr) (operator : Token) (right : Expr)
  | Set (object : Expr) (name : Token) (value : Expr)
  | This (keyword : Token)
  | Unary (operator : Token) (right : Expr)
  | Variable (name : Token)

/-- stmt.rs. -/
inductive Stmt where
  | Block (statements : List Stmt)
  | Class (name : Token) (methods : List Stmt)
  | Expr (expr : Expr)
  | Function (name : Token) (params : List Token) (body : List Stmt)
  | If (condition : Expr) (then_branch : Stmt) (else_branch : Option Stmt)
  | Print (expr : Expr)
  | Return (keyword : Token) (value : Option Expr)
  | Var (name : Token) (initializer : Option Expr)
  | While (condition : Expr) (body : Stmt)

/-! ## Values and callables (value.rs, lox_callable.rs, lox_function.rs, clock.rs) -/

/-- lox_function.rs: a user function stores its name token, parameter
tokens and body statements — and nothing else (in particular, no
environment). -/
structure LoxFunction where
  name : Token
  params : List Token
  body : List Stmt

/-- lox_function.rs `LoxFunction::new`. -/
def LoxFunction.new (name : Token) (params : List Token) (body : List Stmt) : LoxFunction :=
  ⟨name, params, body⟩

/-- The two implementors of the `LoxCallable` trait: `Clock` (clock.rs) and
`LoxFunction`. -/
inductive Callable where
  | Clock
  | LoxFunction (f : LoxFunction)

/-- value.rs `Value`. -/
inductive Value where
  | Bool (b : Bool)
  | Function (c : Callable)
  | Nil
  | Number (q : Rat)
  | String (s : String)

/-- value.rs `is_truthy`: everything but `Nil` and `Bool(false)` is truthy. -/
def Value.is_truthy : Value → Boolean
  | .Nil => false
  | .Bool false => false
  | _ => true

/-- Decimal rendering of a number payload.  Rust renders `f64` with `{}`;
no theorem below observes the rendering of a number, so an exact decimal
rendering of the rational stands in. -/
def numDisplay (q : Rat) : String :=
  if q.den = 1 then toString q.num else toString q.num ++ "/" ++ toString q.den

/-- value.rs `Display`: bools as `true`/`false`, nil as `nil`, strings
unquoted; a callable renders through the `Debug` impl in lox_callable.rs,
which always writes `<LoxCallable>`. -/
def Value.display : Value → Str
  | .Bool true => "true"
  | .Bool false => "false"
  | .Function _ => "<LoxCallable>"
  | .Nil => "nil"
  | .Number q => numDisplay q
  | .String s => s

/-! ## Runtime errors (error/runtime_error.rs, as imported by interpreter.rs) -/

/-- error/runtime_error.rs `RuntimeError`.  `Return` is the internal
non-local-exit carrier for `return` statements. -/
inductive RuntimeError where
  | InvalidOperator (t : Token)
  | NumberExpectedAfterMinus (line : Nat)
  | Return (v : Value)
  | UndefinedVariable (name : String)
  | ValueNotCallable (v : Value)

/-! ## Environment (environment.rs) -/

/-- One `values: HashMap<String, Value>` map, as an association list whose
keys are unique by construction (`frameInsert` replaces). -/
abbrev Frame := List (String × Value)

/-- Lookup, as `HashMap::get`. -/
def frameGet : Frame → String → Option Value
  | [], _ => none
  | (k, v) :: rest, name => if k = name then some v else frameGet rest name

/-- Insertion, as `HashMap::insert`: overwrite the existing binding or append a new one. -/
def frameInsert : Frame → String → Value → Frame
  | [], name, value => [(name, value)]
  | (k, v) :: rest, name, value =>
      if k = name then (k, value) :: rest else (k, v) :: frameInsert rest name value

/-- environment.rs `Environment`: a node (`values` + optional parent) is
represented by the nonempty chain of frames from that node to the root —
the node itself is `frames.head`, its parent chain is `frames.tail`. -/
structure Environment where
  frames : List Frame

/-- Constructor `Environment::new`: no parent, empty map. -/
def Environment.new : Environment := ⟨[[]]⟩

/-- Constructor `Environment::new_with_parent`: fresh empty map in front of the parent. -/
def Environment.new_with_parent (parent : Environment) : Environment :=
  ⟨[] :: parent.frames⟩

/-- environment.rs `define`: insert or overwrite in the current node only. -/
def Environment.define (env : Environment) (name : String) (value : Value) : Environment :=
  match env.frames with
  | [] => ⟨[[(name, value)]]⟩  -- unreachable: chains are nonempty by construction
  | f :: rest => ⟨frameInsert f name value :: rest⟩

/-- Chain walk of `Environment::get`. -/
def framesGet : List Frame → String → Except RuntimeError Value
  | [], name => .error (.UndefinedVariable name)
  | f :: rest, name =>
      match frameGet f name with
      | some v => .ok v
      | none => framesGet rest name

/-- environment.rs `get`: nearest enclosing definition, else `UndefinedVariable`. -/
def Environment.get (env : Environment) (name : String) : Except RuntimeError Value :=
  framesGet env.frames name

/-- Chain walk of `Environment::assign`: mutate the first frame that
defines the name and return the old value; untouched chain and `none`
when no frame defines it. -/
def framesAssign : List Frame → String → Value → Option Value × List Frame
  | [], _, _ => (none, [])
  | f :: rest, name, value =>
      match frameGet f name with
      | some old => (some old, frameInsert f name value :: rest)
      | none =>
          let r := framesAssign rest name value
          (r.1, f :: r.2)

/-- environment.rs `assign`. -/
def Environment.assign (env : Environment) (name : String) (value : Value) :
    Option Value × Environment :=
  let r := framesAssign env.frames name value
  (r.1, ⟨r.2⟩)

/-- environment.rs `take_parent`: `None` when there is no parent, otherwise
the parent (the caller in execute_block installs it as the new current
environment; the emptied-out child that Rust leaves behind is discarded
there, so it is not modelled). -/
def Environment.take_parent (env : Environment) : Option Environment :=
  match env.frames with
  | _ :: f :: rest => some ⟨f :: rest⟩
  | _ => none

/-! ## Interpreter state (interpreter.rs) -/

/-- interpreter.rs `Interpreter`: the single mutable environment, plus the
`println!` stdout sink modelled as an ordered list of printed lines. -/
structure Interp where
  environment : Environment
  output : List String

/-- interpreter.rs `Interpreter::new`: top-level environment pre-populated with `clock`. -/
def Interp.new : Interp :=
  { environment := Environment.new.define "clock" (Value.Function Callable.Clock)
    output := [] }

/-! ## Parameter binding (the loop in `LoxFunction::call`, lox_function.rs)

Rust iterates `params.iter().enumerate()` and reads `arguments[i]`; `none`
models the index panic when the arguments run out before the parameters do.
Extra arguments are simply ignored, as in the source. -/

/-- The binding loop of `LoxFunction::call`. -/
def bindParams : List Token → List Value → Environment → Option Environment
  | [], _, env => some env
  | _ :: _, [], _ => none
  | p :: ps, a :: args, env => bindParams ps args (env.define p.lexeme a)

/-- interpreter.rs `evaluate_binary`, after both operands are evaluated:
dispatch on operand types × operator.  Arithmetic on numbers is the `Rat`
image of the `f64` arithmetic (no theorem below depends on rounding or on
division by zero). -/
def binaryOp (l : Value) (op : Token) (r : Value) : Except RuntimeError Value :=
  match l, r with
  | Value.Number a, Value.Number b =>
      match op.token_type with
      | .Plus => .ok (.Number (a + b))
      | .Minus => .ok (.Number (a - b))
      | .Star => .ok (.Number (a * b))
      | .Slash => .ok (.Number (a / b))
      | .Greater => .ok (.Bool (decide (a > b)))
      | .GreaterEqual => .ok (.Bool (decide (a ≥ b)))
      | .Less => .ok (.Bool (decide (a < b)))
      | .LessEqual => .ok (.Bool (decide (a ≤ b)))
      | .EqualEqual => .ok (.Bool (decide (a = b)))
      | .BangEqual => .ok (.Bool (decide (a ≠ b)))
      | _ => .error (.InvalidOperator op)
  | Value.String a, Value.String b =>
      match op.token_type with
      | .Plus => .ok (.String (a ++ b))
      | .EqualEqual => .ok (.Bool (decide (a = b)))
      | .BangEqual => .ok (.Bool (decide (a ≠ b)))
      | _ => .error (.InvalidOperator op)
  | Value.Bool a, Value.Bool b =>
      match op.token_type with
      | .EqualEqual => .ok (.Bool (decide (a = b)))
      | .BangEqual => .ok (.Bool (decide (a ≠ b)))
      | _ => .error (.InvalidOperator op)
  | Value.Nil, Value.Nil =>
      match op.token_type with
      | .EqualEqual => .ok (.Bool true)
      | .BangEqual => .ok (.Bool false)
      | _ => .error (.InvalidOperator op)
  | _, _ =>
      match op.token_type with
      | .EqualEqual => .ok (.Bool false)
      | .BangEqual => .ok (.Bool true)
      | _ => .error (.InvalidOperator op)

/-! ## The interpreter (interpreter.rs, lox_function.rs)

Every function takes a fuel argument and consumes one unit per call;
`none` is a cut-off computation (out of fuel, or the `arguments[i]` panic
surfacing from `bindParams`).  On `some (r, st)` the pair is the Rust
return value together with the interpreter state (`self`) as the call left
it — note that state survives errors, exactly as mutation of `self` does. -/

mutual

/-- interpreter.rs `Interpreter::evaluate`. -/
def evaluate : Nat → Interp → Expr → Option (Except RuntimeError Value × Interp)
  | 0, _, _ => none
  | n + 1, st, Expr.Assign name value =>
      match evaluate n st value with
      | none => none
      | some (.error r, st') => some (.error r, st')
      | some (.ok v, st') =>
          -- the Option result of Environment::assign is discarded in the source
          some (.ok v, { st' with environment := (st'.environment.assign name.lexeme v).2 })
  | n + 1, st, Expr.Binary left operator right => evaluate_binary n st left operator right
  | n + 1, st, Expr.Call callee _paren arguments =>
      match evaluate n st callee with
      | none => none
      | some (.error r, st') => some (.error r, st')
      | some (.ok cv, st') =>
          match cv with
          | Value.Function c =>
              match evalArgs n st' arguments with
              | none => none
              | some (.error r, st'') => some (.error r, st'')
              | some (.ok args, st'') =>
                  match callCallable n c st'' args with
                  | none => none
                  | some (v, st3) => some (.ok v, st3)
          | _ => some (.error (.ValueNotCallable cv), st')
  | _ + 1, st, Expr.Get _ name => some (.error (.InvalidOperator name), st)
  | n + 1, st, Expr.Grouping expression => evaluate n st expression
  | _ + 1, st, Expr.Literal l =>
      some (.ok (match l with
        | .Bool b => Value.Bool b
        | .Nil => Value.Nil
        | .Number q => Value.Number q
        | .String s => Value.String s), st)
  | n + 1, st, Expr.Logical left operator right =>
      match evaluate n st left with
      | none => none
      | some (.error r, st') => some (.error r, st')
      | some (.ok v, st') =>
          if operator.token_type = TokenType.Or then
            if v.is_truthy then some (.ok v, st') else evaluate n st' right
          else
            if v.is_truthy then evaluate n st' right else some (.ok v, st')
  | _ + 1, st, Expr.Set _ name _ => some (.error (.InvalidOperator name), st)
  | _ + 1, st, Expr.This keyword => some (.error (.InvalidOperator keyword), st)
  | n + 1, st, Expr.Unary operator right => evaluate_unary n st operator right
  | _ + 1, st, Expr.Variable name => some (st.environment.get name.lexeme, st)

/-- interpreter.rs `evaluate_unary`. -/
def evaluate_unary : Nat → Interp → Token → Expr → Option (Except RuntimeError Value × Interp)
  | 0, _, _, _ => none
  | n + 1, st, operator, right =>
      match evaluate n st right with
      | none => none
      | some (.error r, st') => some (.error r, st')
      | some (.ok v, st') =>
          match operator.token_type with
          | .Minus =>
              match v with
              | Value.Number q => some (.ok (Value.Number (-q)), st')
              | _ => some (.error (.NumberExpectedAfterMinus operator.line), st')
          | .Bang => some (.ok (Value.Bool (! v.is_truthy)), st')
          | _ => some (.error (.InvalidOperator operator), st')

/-- interpreter.rs `evaluate_binary`: left operand first, then right, then
`binaryOp` on the pair. -/
def evaluate_binary :
    Nat → Interp → Expr → Token → Expr → Option (Except RuntimeError Value × Interp)
  | 0, _, _, _, _ => none
  | n + 1, st, left, operator, right =>
      match evaluate n st left with
      | none => none
      | some (.error r, st') => some (.error r, st')
      | some (.ok lv, st') =>
          match evaluate n st' right with
          | none => none
          | some (.error r, st'') => some (.error r, st'')
          | some (.ok rv, st'') => some (binaryOp lv operator rv, st'')

/-- The argument-evaluation loop in the `Expr::Call` arm: left to right,
`?`-propagating. -/
def evalArgs : Nat → Interp → List Expr → Option (Except RuntimeError (List Value) × Interp)
  | 0, _, _ => none
  | _ + 1, st, [] => some (.ok [], st)
  | n + 1, st, a :: rest =>
      match evaluate n st a with
      | none => none
      | some (.error r, st') => some (.error r, st')
      | some (.ok v, st') =>
          match evalArgs n st' rest with
          | none => none
          | some (.error r, st'') => some (.error r, st'')
          | some (.ok vs, st'') => some (.ok (v :: vs), st'')

/-- Dynamic dispatch on `Box<dyn LoxCallable>::call`.  `Clock::call` reads
the system clock (real time); it is modelled as the constant number 0 — no
claim observes its value. -/
def callCallable : Nat → Callable → Interp → List Value → Option (Value × Interp)
  | 0, _, _, _ => none
  | _ + 1, Callable.Clock, st, _ => some (Value.Number 0, st)
  | n + 1, Callable.LoxFunction f, st, args => LoxFunction.call n f st args

/-- lox_function.rs `LoxFunction::call`: bind parameters in a child of the
interpreter's *current* environment, run the body through `execute_block`,
catch the `Return` unwind, and turn every other outcome into `Nil`. -/
def LoxFunction.call : Nat → LoxFunction → Interp → List Value → Option (Value × Interp)
  | 0, _, _, _ => none
  | n + 1, f, st, args =>
      match bindParams f.params args (Environment.new_with_parent st.environment) with
      | none => none  -- arguments[i] index panic
      | some env =>
          match executeBlock n st f.body env with
          | none => none
          | some (.error (.Return v), st') => some (v, st')
          | some (_, st') => some (Value.Nil, st')

/-- interpreter.rs `execute_block`: install a child of `env`, run the
statements (`?`-propagating — on error the pop below is skipped), then pop
back to the parent. -/
def executeBlock : Nat → Interp → List Stmt → Environment → Option (Except RuntimeError Unit × Interp)
  | 0, _, _, _ => none
  | n + 1, st, statements, env =>
      match executeList n { st with environment := Environment.new_with_parent env } statements with
      | none => none
      | some (.error r, st2) => some (.error r, st2)
      | some (.ok _, st2) =>
          match st2.environment.take_parent with
          | some parent => some (.ok (), { st2 with environment := parent })
          | none => some (.ok (), st2)

/-- The statement loop shared by `Interpreter::interpret` and the body of
`execute_block`: execute in order, stopping at the first propagated error. -/
def executeList : Nat → Interp → List Stmt → Option (Except RuntimeError Unit × Interp)
  | 0, _, _ => none
  | _ + 1, st, [] => some (.ok (), st)
  | n + 1, st, s :: rest =>
      match execute n st s with
      | none => none
      | some (.error r, st') => some (.error r, st')
      | some (.ok _, st') => executeList n st' rest

/-- interpreter.rs `execute_while`. -/
def executeWhile : Nat → Interp → Expr → Stmt → Option (Except RuntimeError Unit × Interp)
  | 0, _, _, _ => none
  | n + 1, st, condition, body =>
      match evaluate n st condition with
      | none => none
      | some (.error r, st') => some (.error r, st')
      | some (.ok v, st') =>
          if v.is_truthy then
            match execute n st' body with
            | none => none
            | some (.error r, st'') => some (.error r, st'')
            | some (.ok _, st'') => executeWhile n st'' condition body
          else some (.ok (), st')

/-- interpreter.rs `Interpreter::execute`.  Note the three `if let Ok(..)`
arms of the source (`If` condition, `Print`, `Var` initializer): an
evaluation error there is silently discarded and the statement succeeds. -/
def execute : Nat → Interp → Stmt → Option (Except RuntimeError Unit × Interp)
  | 0, _, _ => none
  | n + 1, st, Stmt.Block statements =>
      match executeBlock n st statements st.environment with
      | none => none
      | some (.error r, st') => some (.error r, st')
      | some (.ok _, st') => some (.ok (), st')
  | _ + 1, st, Stmt.Class _ _ => some (.ok (), st)  -- TODO in the source: does nothing
  | n + 1, st, Stmt.Expr e =>
      match evaluate n st e with
      | none => none
      | some (.error r, st') => some (.error r, st')
      | some (.ok _, st') => some (.ok (), st')
  | n + 1, st, Stmt.If condition then_branch else_branch =>
      match evaluate n st condition with
      | none => none
      | some (.error _, st') => some (.ok (), st')  -- `if let Ok`: condition error swallowed
      | some (.ok v, st') =>
          if v.is_truthy then execute n st' then_branch
          else
            match else_branch with
            | some e => execute n st' e
            | none => some (.ok (), st')
  | _ + 1, st, Stmt.Function name params body =>
      let f := Value.Function (Callable.LoxFunction (LoxFunction.new name params body))
      some (.ok (), { st with environment := st.environment.define name.lexeme f })
  | n + 1, st, Stmt.Print e =>
      match evaluate n st e with
      | none => none
      | some (.error _, st') => some (.ok (), st')  -- `if let Ok`: error swallowed, nothing printed
      | some (.ok v, st') => some (.ok (), { st' with output := st'.output ++ [v.display] })
  | n + 1, st, Stmt.Return _ value =>
      match value with
      | none => some (.error (.Return Value.Nil), st)
      | some e =>
          match evaluate n st e with
          | none => none
          | some (.error r, st') => some (.error r, st')
          | some (.ok v, st') => some (.error (.Return v), st')
  | _ + 1, st, Stmt.Var name none =>
      some (.ok (), { st with environment := st.environment.define name.lexeme Value.Nil })
  | n + 1, st, Stmt.Var name (some initializer) =>
      match evaluate n st initializer with
      | none => none
      | some (.error _, st') => some (.ok (), st')  -- `if let Ok`: initializer error swallowed
      | some (.ok v, st') =>
          some (.ok (), { st' with environment := st'.environment.define name.lexeme v })
  | n + 1, st, Stmt.While condition body => executeWhile n st condition body

end

/-- interpreter.rs `Interpreter::interpret`: the same loop as
`executeList` — execute the statements in order against the interpreter's
environment, returning `Ok(())` or the first propagated error. -/
def interpret (fuel : Nat) (st : Interp) (statements : List Stmt) :
    Option (Except RuntimeError Unit × Interp) :=
  executeList fuel st statements

/-! ## The driver (main.rs)

`run` scans and parses the source line and then interprets it; scanning and
parsing of the line are taken as given here (a line is represented by its
parsed statement list — both are total front-end steps for the inputs the
theorems below use).  The decisive behaviour of main.rs `run` for the
interpreter is modelled exactly: it constructs a **fresh**
`Interpreter::new()` for the statements of every call and reports (but does
not propagate) a runtime error. -/

/-- main.rs `run`, from the interpreting step on: `Interpreter::new().interpret(statements)`. -/
def run (fuel : Nat) (statements : List Stmt) : Option (Except RuntimeError Unit × Interp) :=
  interpret fuel Interp.new statements

/-- main.rs `run_prompt`: one `run` per input line; nothing is threaded
between iterations.  The result list records each line's interpretation
outcome (Rust prints runtime errors to stderr and discards them). -/
def run_prompt (fuel : Nat) (lines : List (List Stmt)) :
    List (Option (Except RuntimeError Unit × Interp)) :=
  lines.map (run fuel)

/-! ## The scanner (scanner.rs, reporter.rs)

scanner.rs is written against an earlier token model than token.rs (its
`Token::new` takes kind, lexeme, optional decoded literal and line, and its
`TokenType::String`/`Number` carry no payload), so the scanner's token
model lives in its own namespace.  Errors are accumulated in the
`Reporter` (reporter.rs), modelled as the list of reported message
strings.  Sources are lists of characters; the Rust code mixes
char-counting with byte slicing, which agree on the ASCII sources all
theorems below use. -/

namespace Scan

/-- The scanner-side token kinds. -/
inductive TokenType where
  | LeftParen | RightParen | LeftBrace | RightBrace | Comma | Dot | Minus | Plus
  | Semicolon | Slash | Star
  | Bang | BangEqual | Equal | EqualEqual | Greater | GreaterEqual | Less | LessEqual
  | Identifier | String | Number
  | And | Class | Else | False | Fun | For | If | Nil | Or | Print | Return
  | Super | This | True | Var | While
  | Eof
deriving Repr, DecidableEq

/-- The decoded literal attached to string/number tokens. -/
inductive Literal where
  | String (s : Str)
  | Number (q : Rat)
deriving Repr, DecidableEq

/-- The scanner-side token. -/
structure Token where
  token_type : TokenType
  lexeme : Str
  literal : Option Literal
  line : Nat
deriving Repr, DecidableEq

/-- The `Token::len()` method as the scanner calls it: the length of the lexeme (all
lexemes the scanner builds are ASCII, where Rust's byte length agrees with
the character count). -/
def Token.len (t : Token) : Nat := t.lexeme.length

/-- token_type.rs `get_type_for_keyword`, at the scanner's token kinds. -/
def getTypeForKeyword : String → Option TokenType
  | "and" => some .And
  | "class" => some .Class
  | "else" => some .Else
  | "false" => some .False
  | "fun" => some .Fun
  | "for" => some .For
  | "if" => some .If
  | "nil" => some .Nil
  | "or" => some .Or
  | "print" => some .Print
  | "return" => some .Return
  | "super" => some .Super
  | "this" => some .This
  | "true" => some .True
  | "var" => some .Var
  | "while" => some .While
  | _ => none

/-- Numeric value of an ASCII digit. -/
def digitVal (c : Char) : Nat := c.toNat - '0'.toNat

/-- Value of a digit string. -/
def digitsToNat (l : List Char) : Nat := l.foldl (fun acc c => acc * 10 + digitVal c) 0

/-- Decoded value of a number lexeme (`[0-9]+` or `[0-9]+ '.' [0-9]+`):
the exact rational image of Rust's `parse::<f64>` (no theorem observes
floating-point rounding). -/
def parseNum (s : String) : Rat :=
  let l := s.toList
  let intPart := l.takeWhile Char.isDigit
  match l.drop intPart.length with
  | '.' :: frac => (digitsToNat intPart : Rat) + (digitsToNat frac : Rat) / ((10 : Rat) ^ frac.length)
  | _ => (digitsToNat intPart : Rat)

/-- scanner.rs `scan_number`: munch `[0-9]+`, then a `'.' [0-9]+` suffix
only when at least one digit follows the dot — a trailing dot is left
unconsumed. -/
def scan_number (source : List Char) (line : Nat) : Token :=
  let m := (source.takeWhile Char.isDigit).length
  let munched :=
    if (source.drop m).take 1 = ['.'] then
      let n := ((source.drop (m + 1)).takeWhile Char.isDigit).length
      if 0 < n then m + 1 + n else m
    else m
  let number := (source.take munched).asString
  ⟨.Number, number, some (.Number (parseNum number)), line⟩

/-- scanner.rs `scan_identifier`: munch `[_A-Za-z]+` and rekind keywords. -/
def scan_identifier (source : List Char) (line : Nat) : Token :=
  let identifier := (source.takeWhile fun c => c.isAlpha || c = '_').asString
  let token_type :=
    match getTypeForKeyword identifier with
    | some keyword_type => keyword_type
    | none => TokenType.Identifier
  ⟨token_type, identifier, none, line⟩

theorem length_asString (l : List Char) : (List.asString l).length = l.length := rfl

theorem scan_number_len_pos (c : Char) (rest : List Char) (line : Nat)
    (hc : c.isDigit = true) : 0 < (scan_number (c :: rest) line).len := by
  have hm : 0 < ((c :: rest).takeWhile Char.isDigit).length := by
    simp [List.takeWhile_cons, hc]
  simp only [scan_number, Token.len, length_asString, List.length_take]
  rw [lt_min_iff]
  refine ⟨?_, by simp⟩
  split
  · split <;> omega
  · omega

theorem scan_identifier_len_pos (c : Char) (rest : List Char) (line : Nat)
    (hc : (c.isAlpha || c = '_') = true) : 0 < (scan_identifier (c :: rest) line).len := by
  have hm : 0 < ((c :: rest).takeWhile fun ch => ch.isAlpha || ch = '_').length := by
    simp [List.takeWhile_cons, hc]
  simpa only [scan_identifier, Token.len, length_asString] using hm

theorem dropWhile_length_le (p : Char → Bool) (l : List Char) :
    (l.dropWhile p).length ≤ l.length := by
  induction l with
  | nil => simp [List.dropWhile]
  | cons c rest ih =>
      simp only [List.dropWhile]
      split
      · exact Nat.le_trans ih (by simp)
      · simp

/-- scanner.rs `scan_token`: the per-character dispatch loop.  The Rust
`match c` arms appear as an if-chain (Lean has no char-range patterns);
the `'//'` comment arm's find-`'\n'`-and-slice is written as the equivalent
`dropWhile (· ≠ '\n')` (dropping to the first newline, or everything when
there is none). -/
def scan_token : List Char → List Token → Nat → List String → List Token × List String
  | [], tokens, line, reporter => (tokens ++ [⟨.Eof, "", none, line⟩], reporter)
  | c :: rest, tokens, line, reporter =>
    if c = '(' then scan_token rest (tokens ++ [⟨.LeftParen, c.toString, none, line⟩]) line reporter
    else if c = ')' then scan_token rest (tokens ++ [⟨.RightParen, c.toString, none, line⟩]) line reporter
    else if c = '{' then scan_token rest (tokens ++ [⟨.LeftBrace, c.toString, none, line⟩]) line reporter
    else if c = '}' then scan_token rest (tokens ++ [⟨.RightBrace, c.toString, none, line⟩]) line reporter
    else if c = ',' then scan_token rest (tokens ++ [⟨.Comma, c.toString, none, line⟩]) line reporter
    else if c = '.' then scan_token rest (tokens ++ [⟨.Dot, c.toString, none, line⟩]) line reporter
    else if c = '-' then scan_token rest (tokens ++ [⟨.Minus, c.toString, none, line⟩]) line reporter
    else if c = '+' then scan_token rest (tokens ++ [⟨.Plus, c.toString, none, line⟩]) line reporter
    else if c = ';' then scan_token rest (tokens ++ [⟨.Semicolon, c.toString, none, line⟩]) line reporter
    else if c = '*' then scan_token rest (tokens ++ [⟨.Star, c.toString, none, line⟩]) line reporter
    else if hslash : c = '/' then
      if rest.head? = some '/' then
        scan_token ((c :: rest).dropWhile fun ch => ch ≠ '\n') tokens line reporter
      else scan_token rest (tokens ++ [⟨.Slash, c.toString, none, line⟩]) line reporter
    else if c = '!' then
      if rest.head? = some '=' then
        scan_token (rest.drop 1) (tokens ++ [⟨.BangEqual, "!=", none, line⟩]) line reporter
      else scan_token rest (tokens ++ [⟨.Bang, c.toString, none, line⟩]) line reporter
    else if c = '=' then
      if rest.head? = some '=' then
        scan_token (rest.drop 1) (tokens ++ [⟨.EqualEqual, "==", none, line⟩]) line reporter
      else scan_token rest (tokens ++ [⟨.Equal, c.toString, none, line⟩]) line reporter
    else if c = '<' then
      if rest.head? = some '=' then
        scan_token (rest.drop 1) (tokens ++ [⟨.LessEqual, "<=", none, line⟩]) line reporter
      else scan_token rest (tokens ++ [⟨.Less, c.toString, none, line⟩]) line reporter
    else if c = '>' then
      if rest.head? = some '=' then
        scan_token (rest.drop 1) (tokens ++ [⟨.GreaterEqual, ">=", none, line⟩]) line reporter
      else scan_token rest (tokens ++ [⟨.Greater, c.toString, none, line⟩]) line reporter
    else if c = ' ' ∨ c = '\r' ∨ c = '\t' then scan_token rest tokens line reporter
    else if c = '\n' then scan_token rest tokens (line + 1) reporter
    else if c = '"' then
      let content := rest.takeWhile fun ch => ch ≠ '"'
      if content.length < rest.length then
        scan_token (rest.drop (content.length + 1))
          (tokens ++ [⟨.String, ('"' :: (content ++ ['"'])).asString, some (.String content.asString), line⟩])
          (line + content.count '\n') reporter
      else
        scan_token [] tokens line
          (reporter ++ ["Unterminated string starting on line " ++ toString line])
    else if hdig : c.isDigit then
      let token := scan_number (c :: rest) line
      scan_token ((c :: rest).drop token.len) (tokens ++ [token]) line reporter
    else if hid : c.isAlpha || c = '_' then
      let token := scan_identifier (c :: rest) line
      scan_token ((c :: rest).drop token.len) (tokens ++ [token]) line reporter
    else
      scan_token rest tokens line
        (reporter ++ ["Unexpected character " ++ c.toString ++ " on line " ++ toString line])
termination_by source _ _ _ => source.length
decreasing_by
  all_goals simp_wf
  all_goals first
    | omega
    | simp
    | (first
        | (have hlt := scan_number_len_pos c rest line hdig
           simp [List.length_drop, Token.len] at hlt ⊢
           omega)
        | (have hlt := scan_identifier_len_pos c rest line hid
           simp [List.length_drop, Token.len] at hlt ⊢
           omega)
        | (subst hslash
           have hd := dropWhile_length_le (fun ch : Char => ch ≠ '\n') rest
           simp [List.dropWhile] at hd ⊢
           omega))

/-- The characters the `scan_token` dispatch handles; anything else falls
through to the `Unexpected character` arm. -/
def handled (c : Char) : Bool :=
  c = '(' || c = ')' || c = '{' || c = '}' || c = ',' || c = '.' || c = '-' || c = '+' ||
  c = ';' || c = '*' || c = '/' || c = '!' || c = '=' || c = '<' || c = '>' ||
  c = ' ' || c = '\r' || c = '\t' || c = '\n' || c = '"' || c.isDigit || c.isAlpha || c = '_'

/-- scanner.rs `Scanner::scan_tokens`: empty token vector, line 1. -/
def scan_tokens (source : String) (reporter : List String) : List Token × List String :=
  scan_token source.toList [] 1 reporter

end Scan

/-! ## Fixtures shared by the claim theorems -/

/-- An identifier token. -/
def idTok (n : String) : Token := ⟨.Identifier, n, 1⟩

/-- A string-literal expression. -/
def strLit (s : String) : Expr := .Literal (.String s)

/-- The `or` keyword token. -/
def orTok : Token := ⟨.Or, "or", 1⟩

/-- The `and` keyword token. -/
def andTok : Token := ⟨.And, "and", 1⟩

/-- The program `fun f(p) {} f();`: one declared parameter, zero arguments. -/
def c10prog : List Stmt :=
  [ Stmt.Function (idTok "f") [idTok "p"] [],
    Stmt.Expr (Expr.Call (Expr.Variable (idTok "f")) (idTok ")") []) ]

/-- The program `print x; print "hi";` with `x` undefined. -/
def c2prog : List Stmt :=
  [ Stmt.Print (Expr.Variable (idTok "x")), Stmt.Print (strLit "hi") ]

/-- The program
`var a = "global"; fun f() { return a; } { var a = "local"; print f(); }`.
Under lexical closure semantics the call inside the block prints `global`;
under the source's call-time resolution it prints `local`. -/
def c1prog : List Stmt :=
  [ Stmt.Var (idTok "a") (some (strLit "global")),
    Stmt.Function (idTok "f") [] [Stmt.Return (idTok "return") (some (Expr.Variable (idTok "a")))],
    Stmt.Block [ Stmt.Var (idTok "a") (some (strLit "local")),
                 Stmt.Print (Expr.Call (Expr.Variable (idTok "f")) (idTok ")") []) ] ]

/-- The function `fun g() { nope; }` whose body dereferences an undefined
variable. -/
def gFun : LoxFunction :=
  LoxFunction.new (idTok "g") [] [Stmt.Expr (Expr.Variable (idTok "nope"))]

/-- A state binding `g` to `gFun`. -/
def gState : Interp :=
  { Interp.new with environment :=
      Interp.new.environment.define "g" (Value.Function (Callable.LoxFunction gFun)) }

/-- The program `{ var x = "1"; y; }` with `y` undefined: the block body
raises a runtime error after defining `x` in the block scope. -/
def c4prog : List Stmt :=
  [ Stmt.Block [ Stmt.Var (idTok "x") (some (strLit "1")),
                 Stmt.Expr (Expr.Variable (idTok "y")) ] ]

/-! ## Claim C9 — short-circuit evaluation of `Logical` -/

/-- C9: `Logical` evaluation short-circuits.  For `or`, a truthy left
operand is returned as-is and the right operand is never evaluated (the
state is exactly the left operand's post-state); for `and`, a falsy left
operand is returned likewise; in the remaining cases the result is exactly
the evaluation of the right operand from the left's post-state, uncoerced. -/
theorem c9_logical_short_circuit :
    (∀ n st l op r v st', evaluate n st l = some (.ok v, st') →
        op.token_type = TokenType.Or → v.is_truthy = true →
        evaluate (n + 1) st (Expr.Logical l op r) = some (.ok v, st'))
  ∧ (∀ n st l op r v st', evaluate n st l = some (.ok v, st') →
        op.token_type = TokenType.And → v.is_truthy = false →
        evaluate (n + 1) st (Expr.Logical l op r) = some (.ok v, st'))
  ∧ (∀ n st l op r v st', evaluate n st l = some (.ok v, st') →
        ((op.token_type = TokenType.Or ∧ v.is_truthy = false) ∨
         (op.token_type ≠ TokenType.Or ∧ v.is_truthy = true)) →
        evaluate (n + 1) st (Expr.Logical l op r) = evaluate n st' r) := by
  refine ⟨?_, ?_, ?_⟩
  · intro n st l op r v st' hl hop hv
    simp [evaluate, hl, hop, hv]
  · intro n st l op r v st' hl hop hv
    have : op.token_type ≠ TokenType.Or := by rw [hop]; intro h; cases h
    simp [evaluate, hl, this, hv]
  · intro n st l op r v st' hl hcase
    rcases hcase with ⟨hop, hv⟩ | ⟨hop, hv⟩ <;> simp [evaluate, hl, hop, hv]

/-- Witness for C9 at a concrete input: `true or false` evaluates to the
left operand `true` without touching the right operand. -/
theorem c9_logical_short_circuit_witness :
    evaluate 2 Interp.new (Expr.Logical (Expr.Literal (.Bool true)) orTok (Expr.Literal (.Bool false)))
      = some (.ok (Value.Bool true), Interp.new) :=
  c9_logical_short_circuit.1 1 Interp.new (Expr.Literal (.Bool true)) orTok
    (Expr.Literal (.Bool false)) (Value.Bool true) Interp.new rfl rfl rfl

/-! ## Claim C10 — no arity check in `LoxFunction::call` -/


/-- C10: the binding loop of `LoxFunction::call` reads `arguments[i]` for
each parameter position without an arity check, and the `Expr::Call` arm
performs none either.  The loop is total whenever at least as many
arguments as parameters are supplied; with fewer arguments the indexing
goes out of bounds (the panic marker `none`), and a full program calling a
one-parameter function with no arguments drives the whole interpreter into
that panic. -/
theorem c10_no_arity_check :
    (∀ params args env, params.length ≤ args.length → (bindParams params args env).isSome = true)
  ∧ bindParams [idTok "p"] [] Environment.new = none
  ∧ interpret 20 Interp.new c10prog = none := by
  refine ⟨?_, rfl, rfl⟩
  intro params
  induction params with
  | nil => intro args env _; rfl
  | cons p ps ih =>
      intro args env hlen
      match args with
      | [] => simp at hlen
      | a :: args' => exact ih args' (env.define p.lexeme a) (by simpa using hlen)

/-- Witness for C10's totality half at a concrete input: one parameter,
one argument. -/
theorem c10_no_arity_check_witness :
    (bindParams [idTok "p"] [Value.Nil] Environment.new).isSome = true :=
  c10_no_arity_check.1 [idTok "p"] [Value.Nil] Environment.new (by decide)

/-! ## Claim C2 — propagation of runtime errors through `interpret` -/


/-- Counterexample to C2: the claim says `interpret` returns the
`UndefinedVariable "x"` error raised while evaluating the expression of the
first `Print` statement and stops there.  In fact the `if let Ok(..)` in
the `Print` arm discards the error: `interpret` returns `Ok(())`, nothing
is printed for the first statement, and the second statement still runs
(the output is `["hi"]`). -/
theorem c2_print_error_swallowed_cx :
    interpret 9 Interp.new c2prog = some (.ok (), { Interp.new with output := ["hi"] })
    ∧ ¬ ∃ e st', interpret 9 Interp.new c2prog = some (Except.error e, st') := by
  refine ⟨rfl, ?_⟩
  rintro ⟨e, st', h⟩
  rw [show interpret 9 Interp.new c2prog
        = some (.ok (), { Interp.new with output := ["hi"] }) from rfl] at h
  simp at h

/-- C2 as amended: `interpret` stops with the first runtime error raised
by the expression of an expression *statement*, by a `While` condition, or
by a `Return` value; but an error while evaluating the expression of a
`Print`, the condition of an `If`, or the initializer of a `Var` is
silently discarded — the statement succeeds (with the side effects already
performed) and execution continues with the next statement. -/
theorem c2_first_error_propagation_amended :
    (∀ n (st : Interp) e rest r st', evaluate n st e = some (.error r, st') →
        interpret (n + 2) st (Stmt.Expr e :: rest) = some (.error r, st'))
  ∧ (∀ n (st : Interp) cond body rest r st', evaluate n st cond = some (.error r, st') →
        interpret (n + 3) st (Stmt.While cond body :: rest) = some (.error r, st'))
  ∧ (∀ n (st : Interp) tok e rest r st', evaluate n st e = some (.error r, st') →
        interpret (n + 2) st (Stmt.Return tok (some e) :: rest) = some (.error r, st'))
  ∧ (∀ n (st : Interp) e rest r st', evaluate n st e = some (.error r, st') →
        interpret (n + 2) st (Stmt.Print e :: rest) = interpret (n + 1) st' rest)
  ∧ (∀ n (st : Interp) cond tb eb r st', evaluate n st cond = some (.error r, st') →
        execute (n + 1) st (Stmt.If cond tb eb) = some (.ok (), st'))
  ∧ (∀ n (st : Interp) name init r st', evaluate n st init = some (.error r, st') →
        execute (n + 1) st (Stmt.Var name (some init)) = some (.ok (), st')) := by
  refine ⟨?_, ?_, ?_, ?_, ?_, ?_⟩
  · intro n st e rest r st' h
    simp [interpret, executeList, execute, h]
  · intro n st cond body rest r st' h
    simp [interpret, executeList, execute, executeWhile, h]
  · intro n st tok e rest r st' h
    simp [interpret, executeList, execute, h]
  · intro n st e rest r st' h
    simp [interpret, executeList, execute, h]
  · intro n st cond tb eb r st' h
    simp [execute, h]
  · intro n st name init r st' h
    simp [execute, h]

/-- Witness for C2's amended statement at a concrete input: an undefined
variable as an expression statement propagates out of `interpret`. -/
theorem c2_first_error_propagation_witness :
    interpret 3 Interp.new [Stmt.Expr (Expr.Variable (idTok "x"))]
      = some (.error (.UndefinedVariable "x"), Interp.new) :=
  c2_first_error_propagation_amended.1 1 Interp.new (Expr.Variable (idTok "x")) []
    (.UndefinedVariable "x") Interp.new rfl

/-! ## Claim C5 — assignment to an undefined variable -/

/-- Counterexample to C5: the claim says evaluating `x = "v"` with `x`
nowhere defined returns `UndefinedVariable("x")`.  In fact the `Expr::Assign`
arm discards the `Option` result of `Environment::assign`: the evaluation
returns the assigned value `Ok("v")` and leaves the environment unchanged
(no binding is created, no error is raised). -/
theorem c5_assign_undefined_cx :
    evaluate 3 Interp.new (Expr.Assign (idTok "x") (strLit "v"))
      = some (.ok (Value.String "v"), Interp.new)
    ∧ ¬ ∃ st', evaluate 3 Interp.new (Expr.Assign (idTok "x") (strLit "v"))
        = some (.error (.UndefinedVariable "x"), st') := by
  refine ⟨rfl, ?_⟩
  rintro ⟨st', h⟩
  rw [show evaluate 3 Interp.new (Expr.Assign (idTok "x") (strLit "v"))
        = some (.ok (Value.String "v"), Interp.new) from rfl] at h
  simp at h

/-- C5 as amended: `Assign(n, v)` evaluates `v` and hands it to the
environment-chain assignment; when some environment defines `n` the nearest
definition is mutated (the chain walk reports the previous value), when
none does the assignment is silently ignored (the chain is returned
untouched — no `UndefinedVariable` error); in both cases the expression
evaluates to the assigned value. -/
theorem c5_assign_amended :
    (∀ n (st : Interp) name value v st', evaluate n st value = some (.ok v, st') →
        evaluate (n + 1) st (Expr.Assign name value)
          = some (.ok v, { st' with environment := (st'.environment.assign name.lexeme v).2 }))
  ∧ (∀ (env : Environment) name v, (env.assign name v).1 = none → (env.assign name v).2 = env)
  ∧ (∀ (env : Environment) name v old, env.get name = .ok old →
        (env.assign name v).1 = some old) := by
  refine ⟨?_, ?_, ?_⟩
  · intro n st name value v st' h
    simp [evaluate, h]
  · intro env name v h
    rcases env with ⟨fs⟩
    simp only [Environment.assign] at h ⊢
    congr 1
    induction fs with
    | nil => rfl
    | cons f rest ih =>
        simp only [framesAssign] at h ⊢
        rcases hf : frameGet f name with _ | old
        · simp only [hf] at h ⊢
          rw [ih (by simpa using h)]
        · simp [hf] at h
  · intro env name v old h
    rcases env with ⟨fs⟩
    simp only [Environment.assign, Environment.get] at h ⊢
    induction fs with
    | nil => simp [framesGet] at h
    | cons f rest ih =>
        simp only [framesGet, framesAssign] at h ⊢
        rcases hf : frameGet f name with _ | w
        · simp only [hf] at h ⊢
          exact ih h
        · simp only [hf] at h ⊢
          cases h
          rfl

/-- Witness for C5's amended statement at a concrete input. -/
theorem c5_assign_amended_witness :
    evaluate 2 Interp.new (Expr.Assign (idTok "x") (strLit "v"))
      = some (.ok (Value.String "v"),
          { Interp.new with environment := (Interp.new.environment.assign "x" (Value.String "v")).2 }) :=
  c5_assign_amended.1 1 Interp.new (idTok "x") (strLit "v") (Value.String "v") Interp.new rfl

/-! ## Claim C1 — closure capture -/


/-- Counterexample to C1: were the callable to capture its defining
environment, the free `a` in `f`'s body would resolve to the `a = "global"`
in scope at declaration time and the program would print `"global"`.  The
interpreter prints `"local"`: the body resolves `a` in the *caller's*
environment at call time, because `LoxFunction` stores no environment and
`LoxFunction::call` builds the binding scope on
`interpreter.environment` as it is at the call. -/
theorem c1_closure_capture_cx :
    (interpret 30 Interp.new c1prog).map (fun p => p.2.output) = some ["local"]
    ∧ (interpret 30 Interp.new c1prog).map (fun p => p.2.output) ≠ some ["global"] := by
  refine ⟨rfl, ?_⟩
  intro h
  rw [show (interpret 30 Interp.new c1prog).map (fun p => p.2.output)
        = some ["local"] from rfl] at h
  exact absurd h (by decide)

/-- C1 as amended: a user function captures only its name, parameter list
and body — no environment.  At call time the parameters are bound in a
fresh scope whose parent is the interpreter's environment *current at the
call*, so a free variable in the body resolves against the caller's
environment chain (call-time/dynamic resolution): for a no-parameter
function whose body is `return x;`, the call returns whatever the caller's
chain binds `x` to, and leaves the function's two freshly pushed scopes on
the environment (see C4). -/
theorem c1_call_time_resolution_amended (n : Nat) (f : LoxFunction) (st : Interp)
    (args : List Value) (tok x : Token) (v : Value)
    (hparams : f.params = [])
    (hbody : f.body = [Stmt.Return tok (some (Expr.Variable x))])
    (hget : st.environment.get x.lexeme = Except.ok v) :
    LoxFunction.call (n + 5) f st args
      = some (v, { st with environment := ⟨[] :: [] :: st.environment.frames⟩ }) := by
  have hget2 : framesGet st.environment.frames x.lexeme = Except.ok v := hget
  simp [LoxFunction.call, hparams, bindParams, executeBlock, hbody, executeList, execute,
        evaluate, Environment.new_with_parent, Environment.get, framesGet, frameGet, hget2]

/-- Witness for C1's amended statement at a concrete input: calling
`fun f() { return a; }` from a state whose environment binds `a` to
`"caller"` yields `"caller"`. -/
theorem c1_call_time_resolution_witness :
    LoxFunction.call 5
      (LoxFunction.new (idTok "f") [] [Stmt.Return (idTok "return") (some (Expr.Variable (idTok "a")))])
      { Interp.new with environment := Interp.new.environment.define "a" (Value.String "caller") }
      []
      = some (Value.String "caller",
          { Interp.new with environment :=
              ⟨[] :: [] :: (Interp.new.environment.define "a" (Value.String "caller")).frames⟩ }) :=
  c1_call_time_resolution_amended 0
    (LoxFunction.new (idTok "f") [] [Stmt.Return (idTok "return") (some (Expr.Variable (idTok "a")))])
    { Interp.new with environment := Interp.new.environment.define "a" (Value.String "caller") }
    [] (idTok "return") (idTok "a") (Value.String "caller") rfl rfl rfl

/-! ## Claim C3 — runtime errors inside a function body are swallowed -/

/-- C3: for a `Call` of a user-defined function, when the body's execution
ends in any outcome other than the `Return` unwind — a genuine runtime
error such as an undefined variable, or plain completion without a
`return` — the call expression evaluates to `Ok(Nil)` from the body's
final state: the error is not propagated to the caller. -/
theorem c3_body_error_yields_nil (n : Nat) (st : Interp) (callee : Expr) (paren : Token)
    (arguments : List Expr) (f : LoxFunction) (st1 : Interp) (args : List Value) (st2 : Interp)
    (env : Environment) (r : Except RuntimeError Unit) (st3 : Interp)
    (hcallee : evaluate (n + 2) st callee
        = some (.ok (Value.Function (Callable.LoxFunction f)), st1))
    (hargs : evalArgs (n + 2) st1 arguments = some (.ok args, st2))
    (hbind : bindParams f.params args (Environment.new_with_parent st2.environment) = some env)
    (hbody : executeBlock n st2 f.body env = some (r, st3))
    (hnr : ∀ v, r ≠ Except.error (RuntimeError.Return v)) :
    evaluate (n + 3) st (Expr.Call callee paren arguments) = some (.ok Value.Nil, st3) := by
  simp only [evaluate, hcallee, hargs, callCallable, LoxFunction.call, hbind, hbody]


/-- Witness for C3 at a concrete input: `g()` where `g`'s body raises
`UndefinedVariable("nope")` still evaluates to `Nil`. -/
theorem c3_body_error_yields_nil_witness :
    evaluate 7 gState (Expr.Call (Expr.Variable (idTok "g")) (idTok ")") [])
      = some (.ok Value.Nil,
          { gState with environment := ⟨[] :: [] :: gState.environment.frames⟩ }) :=
  c3_body_error_yields_nil 4 gState (Expr.Variable (idTok "g")) (idTok ")") [] gFun gState []
    gState (Environment.new_with_parent gState.environment)
    (.error (.UndefinedVariable "nope"))
    { gState with environment := ⟨[] :: [] :: gState.environment.frames⟩ }
    rfl rfl rfl rfl (by intro v h; simp at h)

/-! ## Claim C4 — environment restoration on block exit -/


/-- Counterexample to C4: the claim says a `Block` leaves the current
environment as it was before the block on *every* exit path, including a
runtime error.  Executing `{ var x = "1"; y; }` raises
`UndefinedVariable("y")`, and the interpreter is left holding the *inner*
block environment (the frame still containing `x` on top of the old
chain): the `?` in `execute_block`'s loop returns before the
`take_parent` pop runs. -/
theorem c4_block_restore_cx :
    interpret 12 Interp.new c4prog
      = some (.error (.UndefinedVariable "y"),
          { Interp.new with environment :=
              ⟨[("x", Value.String "1")] :: Interp.new.environment.frames⟩ })
    ∧ (⟨[("x", Value.String "1")] :: Interp.new.environment.frames⟩ : Environment)
        ≠ Interp.new.environment := by
  refine ⟨rfl, ?_⟩
  intro h
  have hlen := congrArg (fun e => e.frames.length) h
  simp [Interp.new, Environment.define, Environment.new] at hlen

/-- C4 as amended: `execute` of a `Block` pushes a child of the current
environment and runs the statements; only on normal completion does it pop
back to the parent of the final inner chain (the entry environment, as
possibly mutated through the chain during the block); when the statement
list ends in an error — a genuine runtime error or the `Return` unwind —
the pop is skipped and the interpreter keeps the environment exactly as
the failing statement left it (the inner scope stays current). -/
theorem c4_block_restore_amended :
    (∀ n (st : Interp) statements e st2,
        executeList n { st with environment := Environment.new_with_parent st.environment }
            statements = some (.error e, st2) →
        execute (n + 2) st (Stmt.Block statements) = some (.error e, st2))
  ∧ (∀ n (st : Interp) statements st2 parent,
        executeList n { st with environment := Environment.new_with_parent st.environment }
            statements = some (.ok (), st2) →
        st2.environment.take_parent = some parent →
        execute (n + 2) st (Stmt.Block statements)
          = some (.ok (), { st2 with environment := parent })) := by
  constructor
  · intro n st statements e st2 h
    simp [execute, executeBlock, h]
  · intro n st statements st2 parent h hpop
    simp [execute, executeBlock, h, hpop]

/-- Witness for C4's amended statement at a concrete input: the error
branch on `c4prog`'s block body. -/
theorem c4_block_restore_witness :
    execute 12 Interp.new
      (Stmt.Block [ Stmt.Var (idTok "x") (some (strLit "1")),
                    Stmt.Expr (Expr.Variable (idTok "y")) ])
      = some (.error (.UndefinedVariable "y"),
          { Interp.new with environment :=
              ⟨[("x", Value.String "1")] :: Interp.new.environment.frames⟩ }) :=
  c4_block_restore_amended.1 10 Interp.new
    [ Stmt.Var (idTok "x") (some (strLit "1")), Stmt.Expr (Expr.Variable (idTok "y")) ]
    (.UndefinedVariable "y")
    { Interp.new with environment :=
        ⟨[("x", Value.String "1")] :: Interp.new.environment.frames⟩ }
    rfl

/-! ## Claim C6 — REPL persistence across `run()` calls -/

/-- Counterexample to C6: the claim says the top-level environment
persists between `run()` calls, so `var x = "1";` on line 1 makes `x`
visible on line 2.  In fact main.rs `run` constructs a fresh
`Interpreter::new()` for every call: line 1 ends with `x` defined in its
interpreter's environment, yet line 2 — `x;` — fails with
`UndefinedVariable("x")` in a fresh environment containing only `clock`. -/
theorem c6_repl_persistence_cx :
    run_prompt 9 [ [Stmt.Var (idTok "x") (some (strLit "1"))],
                   [Stmt.Expr (Expr.Variable (idTok "x"))] ]
      = [ some (.ok (), { Interp.new with environment :=
              Interp.new.environment.define "x" (Value.String "1") }),
          some (.error (.UndefinedVariable "x"), Interp.new) ]
    ∧ (Interp.new.environment.define "x" (Value.String "1")).get "x"
        = .ok (Value.String "1") := by
  exact ⟨rfl, rfl⟩

/-- C6 as amended: every `run()` call interprets its line in a freshly
constructed interpreter, so nothing persists between REPL lines — the
outcome of a line is a function of that line alone, independent of every
earlier line (in particular of definitions made or runtime errors raised
there). -/
theorem c6_run_independent_of_earlier_lines_amended :
    ∀ (pre : List (List Stmt)) (line : List Stmt) (fuel : Nat),
      (run_prompt fuel (pre ++ [line])).getLast? = some (run fuel line) := by
  intro pre line fuel
  simp [run_prompt]

/-! ## Scanner lemmas shared by claims C7 and C8 -/

namespace Scan

theorem takeWhile_eq_self_of_all {p : Char → Bool} :
    ∀ {l : List Char}, (∀ c ∈ l, p c = true) → l.takeWhile p = l := by
  intro l
  induction l with
  | nil => intro _; rfl
  | cons c cs ih =>
      intro h
      rw [List.takeWhile_cons, if_pos (h c (by simp))]
      rw [ih fun x hx => h x (by simp [hx])]

theorem takeWhile_all_append {p : Char → Bool} {l1 : List Char} (h : ∀ c ∈ l1, p c = true)
    {b : Char} (hb : p b = false) (l2 : List Char) :
    (l1 ++ b :: l2).takeWhile p = l1 := by
  induction l1 with
  | nil => simp [List.takeWhile_cons, hb]
  | cons c cs ih =>
      rw [List.cons_append, List.takeWhile_cons, if_pos (h c (by simp))]
      rw [ih fun x hx => h x (by simp [hx])]


/-- A digit is distinct from every non-digit character. -/
theorem digit_ne {d : Char} (hd : d.isDigit = true) {c : Char} (hc : c.isDigit = false) :
    ¬ d = c := by
  intro he
  rw [he] at hd
  simp [hd] at hc

/-- On a leading digit, `scan_token` munches `scan_number`'s token and
continues after it. -/
theorem scan_token_digit_step (c : Char) (rest : List Char) (tokens : List Token) (line : Nat)
    (reporter : List String) (hc : c.isDigit = true) :
    scan_token (c :: rest) tokens line reporter
      = scan_token ((c :: rest).drop (scan_number (c :: rest) line).len)
          (tokens ++ [scan_number (c :: rest) line]) line reporter := by
  have h1 := digit_ne hc (c := '(') (by decide)
  have h2 := digit_ne hc (c := ')') (by decide)
  have h3 := digit_ne hc (c := '{') (by decide)
  have h4 := digit_ne hc (c := '}') (by decide)
  have h5 := digit_ne hc (c := ',') (by decide)
  have h6 := digit_ne hc (c := '.') (by decide)
  have h7 := digit_ne hc (c := '-') (by decide)
  have h8 := digit_ne hc (c := '+') (by decide)
  have h9 := digit_ne hc (c := ';') (by decide)
  have h10 := digit_ne hc (c := '*') (by decide)
  have h11 := digit_ne hc (c := '/') (by decide)
  have h12 := digit_ne hc (c := '!') (by decide)
  have h13 := digit_ne hc (c := '=') (by decide)
  have h14 := digit_ne hc (c := '<') (by decide)
  have h15 := digit_ne hc (c := '>') (by decide)
  have h16 := digit_ne hc (c := ' ') (by decide)
  have h17 := digit_ne hc (c := '\r') (by decide)
  have h18 := digit_ne hc (c := '\t') (by decide)
  have h19 := digit_ne hc (c := '\n') (by decide)
  have h20 := digit_ne hc (c := '"') (by decide)
  simp only [scan_token]
  simp_all

/-- On a leading `'.'`, `scan_token` pushes a `Dot` token and continues. -/
theorem scan_token_dot_step (rest : List Char) (tokens : List Token) (line : Nat)
    (reporter : List String) :
    scan_token ('.' :: rest) tokens line reporter
      = scan_token rest (tokens ++ [⟨.Dot, ".", none, line⟩]) line reporter := by
  simp only [scan_token]
  norm_num
  rfl

/-- Evaluation of `scan_number` on an all-digit prefix followed by a dot that no digit
follows: the token is the digit prefix alone (the dot is left in place). -/
theorem scan_number_spec (ds rest : List Char) (line : Nat)
    (hdig : ∀ c ∈ ds, c.isDigit = true)
    (hrest : ∀ c, rest.head? = some c → c.isDigit = false) :
    scan_number (ds ++ '.' :: rest) line
      = ⟨.Number, ds.asString, some (.Number (parseNum ds.asString)), line⟩ := by
  have h1 : (ds ++ '.' :: rest).takeWhile Char.isDigit = ds :=
    takeWhile_all_append hdig (by decide) rest
  have h2 : (ds ++ '.' :: rest).drop ds.length = '.' :: rest := List.drop_left ds ('.' :: rest)
  have h3 : (ds ++ '.' :: rest).drop (ds.length + 1) = rest := by
    rw [show ds ++ '.' :: rest = (ds ++ ['.']) ++ rest by simp]
    rw [show ds.length + 1 = (ds ++ ['.']).length by simp]
    exact List.drop_left _ _
  have h4 : rest.takeWhile Char.isDigit = [] := by
    cases rest with
    | nil => rfl
    | cons c cs => simp [List.takeWhile_cons, hrest c rfl]
  have h5 : (ds ++ '.' :: rest).take ds.length = ds := List.take_left ds ('.' :: rest)
  simp only [scan_number, h1, h2, h3, h4, h5]
  norm_num

end Scan

/-! ## Claim C7 — abortive scanning on the first lexical error -/

/-- Counterexample to C7: the claim says scanning stops at the first
lexical error, reports exactly that one error, and produces no tokens from
the input after the error position.  Scanning `"@;"` reports the
`Unexpected character @` error and then *continues*: the `;` after the
error position is tokenized (the result holds a `Semicolon` token), and
scanning `"@@"` reports *two* errors. -/
theorem c7_scan_abortive_cx :
    Scan.scan_tokens "@;" []
      = ([⟨.Semicolon, ";", none, 1⟩, ⟨.Eof, "", none, 1⟩],
         ["Unexpected character @ on line 1"])
    ∧ (∃ t ∈ (Scan.scan_tokens "@;" []).1, t.token_type = Scan.TokenType.Semicolon)
    ∧ Scan.scan_tokens "@@" []
      = ([⟨.Eof, "", none, 1⟩],
         ["Unexpected character @ on line 1", "Unexpected character @ on line 1"]) := by
  refine ⟨?_, ?_, ?_⟩
  · simp [Scan.scan_tokens, Scan.scan_token]
    decide
  · rw [show (Scan.scan_tokens "@;" []).1 = [⟨.Semicolon, ";", none, 1⟩, ⟨.Eof, "", none, 1⟩] by
      simp [Scan.scan_tokens, Scan.scan_token]
      decide]
    exact ⟨⟨.Semicolon, ";", none, 1⟩, by simp, rfl⟩
  · simp [Scan.scan_tokens, Scan.scan_token]
    decide

/-- C7 as amended: scanning is *not* abortive.  At a character outside the
dispatch (`handled c = false`) the scanner appends the `Unexpected
character` message to the reporter and continues scanning the rest of the
input — so tokens after an error position are still produced and several
errors can accumulate.  Only an unterminated string consumes the whole
remaining input (so nothing but the `Eof` token follows it), again merely
recording its message in the reporter. -/
theorem c7_scan_not_abortive_amended :
    (∀ c rest tokens line reporter, Scan.handled c = false →
        Scan.scan_token (c :: rest) tokens line reporter
          = Scan.scan_token rest tokens line
              (reporter ++ ["Unexpected character " ++ c.toString ++ " on line " ++ toString line]))
  ∧ (∀ rest tokens line reporter, (∀ ch ∈ rest, ch ≠ '"') →
        Scan.scan_token ('"' :: rest) tokens line reporter
          = (tokens ++ [⟨.Eof, "", none, line⟩],
             reporter ++ ["Unterminated string starting on line " ++ toString line])) := by
  constructor
  · intro c rest tokens line reporter h
    simp only [Scan.handled, Bool.or_eq_false_iff, decide_eq_false_iff_not] at h
    simp only [Scan.scan_token]
    simp_all
  · intro rest tokens line reporter h
    have htw : rest.takeWhile (fun ch => ch ≠ '"') = rest :=
      Scan.takeWhile_eq_self_of_all fun c hc => by simpa using h c hc
    simp only [Scan.scan_token, htw]
    simp [Scan.scan_token]

/-- Witness for C7's amended statement at a concrete input: scanning
continues after `'@'`. -/
theorem c7_scan_not_abortive_witness :
    Scan.scan_token ['@', ';'] [] 1 []
      = Scan.scan_token [';'] [] 1
          (["Unexpected character " ++ '@'.toString ++ " on line " ++ toString 1]) :=
  c7_scan_not_abortive_amended.1 '@' [';'] [] 1 [] (by decide)

/-! ## Claim C8 — a digit sequence followed by a bare dot -/

/-- Counterexample to C8: the claim says scanning `"1."` reports
`NumberEndsWithDot` rather than producing a `Number` token followed by a
`Dot` token.  The scanner in scanner.rs has no such error at all: it
produces exactly `Number("1")`, `Dot`, `Eof` and reports nothing. -/
theorem c8_number_ends_with_dot_cx :
    Scan.scan_tokens "1." []
      = ([⟨.Number, "1", some (.Number 1), 1⟩, ⟨.Dot, ".", none, 1⟩, ⟨.Eof, "", none, 1⟩], [])
    ∧ (Scan.scan_tokens "1." []).2 = [] := by
  have h1 : Scan.scan_number ['1', '.'] 1 = ⟨.Number, "1", some (.Number 1), 1⟩ := by decide
  have h2 : ("1" : String).length = 1 := rfl
  constructor
  · simp [Scan.scan_tokens, Scan.scan_token, h1, Scan.Token.len, h2]
    decide
  · rw [show Scan.scan_tokens "1." []
        = ([⟨.Number, "1", some (.Number 1), 1⟩, ⟨.Dot, ".", none, 1⟩, ⟨.Eof, "", none, 1⟩],
           ([] : List String)) by
      simp [Scan.scan_tokens, Scan.scan_token, h1, Scan.Token.len, h2]
      decide]

/-- C8 as amended: for every nonempty digit sequence immediately followed
by a `'.'` that no digit follows, the scanner emits a `Number` token for
the digit sequence and then a separate `Dot` token, reporting no error:
`scan_number` refuses to munch the dot and the dot is scanned on its own. -/
theorem c8_number_then_dot_amended (ds rest : List Char) (tokens : List Scan.Token)
    (line : Nat) (reporter : List String)
    (hne : ds ≠ [])
    (hdig : ∀ c ∈ ds, c.isDigit = true)
    (hrest : ∀ c, rest.head? = some c → c.isDigit = false) :
    Scan.scan_token (ds ++ '.' :: rest) tokens line reporter
      = Scan.scan_token rest
          (tokens ++ [⟨.Number, ds.asString, some (.Number (Scan.parseNum ds.asString)), line⟩,
                      ⟨.Dot, ".", none, line⟩])
          line reporter := by
  obtain ⟨d, ds', rfl⟩ : ∃ d ds', ds = d :: ds' := by
    cases ds with
    | nil => simp at hne
    | cons d ds' => exact ⟨d, ds', rfl⟩
  have hd : d.isDigit = true := hdig d (by simp)
  have hnum := Scan.scan_number_spec (d :: ds') rest line hdig hrest
  have hstep := Scan.scan_token_digit_step d (ds' ++ '.' :: rest) tokens line reporter hd
  rw [show (d :: ds') ++ '.' :: rest = d :: (ds' ++ '.' :: rest) from rfl] at hnum ⊢
  rw [hstep, hnum]
  have hlen : (⟨Scan.TokenType.Number, (d :: ds').asString,
      some (.Number (Scan.parseNum (d :: ds').asString)), line⟩ : Scan.Token).len
        = (d :: ds').length := Scan.length_asString (d :: ds')
  rw [hlen]
  rw [show (d :: (ds' ++ '.' :: rest)).drop (d :: ds').length = '.' :: rest from
    List.drop_left (d :: ds') ('.' :: rest)]
  rw [Scan.scan_token_dot_step]
  simp

/-- Witness for C8's amended statement at a concrete input: `"42.x"`
scans as `Number("42")`, `Dot`, then the rest. -/
theorem c8_number_then_dot_witness :
    Scan.scan_token (['4', '2'] ++ '.' :: ['x']) [] 1 []
      = Scan.scan_token ['x']
          [⟨.Number, ['4', '2'].asString, some (.Number (Scan.parseNum ['4', '2'].asString)), 1⟩,
           ⟨.Dot, ".", none, 1⟩]
          1 [] := by
  have h := c8_number_then_dot_amended ['4', '2'] ['x'] [] 1 [] (by decide)
    (by decide) (by intro c hc; cases hc; decide)
  simpa using h
